import Mathlib

/-
Shallow embedding of the classification-and-review subsystem of the
auto-commit repository, together with theorems settling the spec claims.

Modelling conventions:
- A filesystem path is a list of name components, already absolute and
  resolved (the `Path(...).resolve()` calls in the source are modelled by
  assuming inputs are in this resolved form).
- The filesystem is a structure of functions: `isFile` models
  `Path.is_file()`, `pathExists` models `Path.exists()`, and `read`
  models opening a file and iterating its lines.  `read p = (lines, err)`
  means the iteration delivered `lines` and then, when `err` is true,
  raised an I/O exception (an open failure is `([], true)`); `err = false`
  is a clean, complete read.
- The parsed-configuration cache (`self._config_cache`) is an association
  list threaded explicitly through the operations.
- The SQLite review-queue table is a list of rows plus the autoincrement
  counter.  Internal sqlite3 errors at a call site are modelled by a
  boolean `dbErr` argument: `true` means the database call raised.
  Python's `CURRENT_TIMESTAMP` / `datetime.now()` clock is modelled by a
  `now : String` argument.
- Python exceptions that escape a function are modelled with `Except`;
  functions whose `try/except` swallows every exception return plain
  values.
-/

namespace AutoCommit

/-- FileAction from src/config_manager.py: possible actions for a file. -/
inductive FileAction where
  | INCLUDE
  | IGNORE
  | REVIEW
deriving DecidableEq, BEq

/-- Scan for the closing bracket of a glob character class: returns the
class body and the remaining pattern, or none when the class is
unterminated. -/
def findClose (cs : List Char) : Option (List Char × List Char) :=
  match cs with
  | [] => none
  | ']' :: rest => some ([], rest)
  | c :: rest =>
    match findClose rest with
    | none => none
    | some pr => some (c :: pr.1, pr.2)

/-- Split a glob character class after the optional negation marker; a
leading close-bracket is a literal member of the class (fnmatch
semantics). -/
def classSplit (cs : List Char) : Option (List Char × List Char) :=
  match cs with
  | ']' :: t =>
    match findClose t with
    | none => none
    | some pr => some (']' :: pr.1, pr.2)
  | _ => findClose cs

/-- Membership of a character in a glob character-class body, with
ranges written lo-hi. -/
def classMatch (body : List Char) (c : Char) : Bool :=
  match body with
  | [] => false
  | a :: '-' :: b :: rest =>
    (decide (a.toNat ≤ c.toNat) && decide (c.toNat ≤ b.toNat)) || classMatch rest c
  | a :: rest => a == c || classMatch rest c

/-- Shell-glob matching as used by fnmatch.fnmatch on a POSIX system:
star matches any run of characters (slashes included), question mark one
character, bracket expressions with optional leading bang negation;
an unterminated bracket is a literal open bracket. -/
def globMatch (s p : List Char) : Bool :=
  match s, p with
  | [], [] => true
  | [], '*' :: ps => globMatch [] ps
  | [], _ :: _ => false
  | _ :: _, [] => false
  | x :: s2, '*' :: ps => globMatch (x :: s2) ps || globMatch s2 ('*' :: ps)
  | _ :: s2, '?' :: ps => globMatch s2 ps
  | x :: s2, '[' :: ps =>
    let pr : Bool × List Char :=
      match ps with
      | '!' :: t => (true, t)
      | _ => (false, ps)
    (match classSplit pr.2 with
     | none => x == '[' && globMatch s2 ps
     | some br => (classMatch br.1 x != pr.1) && globMatch s2 br.2)
  | x :: s2, c :: ps => x == c && globMatch s2 ps
termination_by (s.length, p.length)

/-- Python str.rstrip applied with a slash argument: drop all trailing
slashes. -/
def rstripSlash (s : String) : String :=
  String.mk ((s.toList.reverse.dropWhile (fun c => c == '/')).reverse)

/-- The characters Python str.strip treats as whitespace. -/
def isSpaceChar (c : Char) : Bool :=
  c == ' ' || c == '\t' || c == '\n' || c == '\r' || c == '\x0b' || c == '\x0c'

/-- Python str.strip(): remove leading and trailing whitespace. -/
def pyStrip (s : String) : String :=
  String.mk (((s.toList.dropWhile isSpaceChar).reverse.dropWhile
    isSpaceChar).reverse)

/-- Python str.startswith. -/
def pyStartsWith (s pre : String) : Bool :=
  pre.toList.isPrefixOf s.toList

/-- Python str.endswith. -/
def pyEndsWith (s suf : String) : Bool :=
  suf.toList.reverse.isPrefixOf s.toList.reverse

/-- Join path components with slashes, as str(PurePosixPath) renders a
relative path. -/
def joinSlash : List String → List Char
  | [] => []
  | [s] => s.toList
  | s :: rest => s.toList ++ '/' :: joinSlash rest

/-- Filesystem oracle used by the configuration manager (see the header
comment for the reading conventions). -/
structure FileSys where
  isFile : List String → Bool
  pathExists : List String → Bool
  read : List String → List String × Bool

/-- Parsed-configuration cache: config-file path to pattern list. -/
abbrev Cache := List (List String × List String)

/-- ConfigurationManager._parse_config_file: return the cached patterns
when present; otherwise read the file, strip each line, keep non-empty
non-comment lines, and cache the result only when the read completed
without an I/O error.  Lines delivered before a mid-read error are still
returned (the Python local accumulates them before the exception is
caught and logged). -/
def parse_config_file (fs : FileSys) (cache : Cache) (config_path : List String) :
    List String × Cache :=
  match cache.lookup config_path with
  | some ps => (ps, cache)
  | none =>
    let res := fs.read config_path
    let patterns := (res.1.map pyStrip).filter
      (fun l => l != "" && !(pyStartsWith l "#"))
    if res.2 then (patterns, cache)
    else (patterns, (config_path, patterns) :: cache)

/-- ConfigurationManager._matches_pattern: relativize the file path to the
configuration directory (a failure of relative_to yields False), then
either directory-pattern matching for a trailing slash or fnmatch glob
matching. -/
def matches_pattern (file_path : List String) (pattern : String)
    (config_dir : List String) : Bool :=
  if config_dir.isPrefixOf file_path then
    let rel := file_path.drop config_dir.length
    let relStr := if rel.isEmpty then "." else String.mk (joinSlash rel)
    if pyEndsWith pattern "/" then
      let dirPattern := rstripSlash pattern
      pyStartsWith relStr (String.mk (dirPattern.toList ++ ['/'])) ||
        relStr == dirPattern
    else globMatch relStr.toList pattern.toList
  else false

/-- Walk-up loop of ConfigurationManager._find_config_files: from
current_dir up to the watch directory (or the filesystem root), collect
existing .gitinclude then .gitignore entries at each level. -/
def find_config_files_walk (fs : FileSys) (watchDir : List String) :
    (current : List String) → List (List String × String)
  | current =>
    let inc := if fs.pathExists (current ++ [".gitinclude"])
      then [(current ++ [".gitinclude"], "include")] else []
    let ign := if fs.pathExists (current ++ [".gitignore"])
      then [(current ++ [".gitignore"], "ignore")] else []
    let here := inc ++ ign
    if current == watchDir then here
    else
      if current.dropLast == current then here
      else here ++ find_config_files_walk fs watchDir current.dropLast
termination_by current => current.length
decreasing_by
  rename_i hcw hpc
  have hne : current ≠ [] := by
    intro h
    subst h
    exact hpc rfl
  simp only [List.length_dropLast]
  exact Nat.sub_lt (List.length_pos.mpr hne) Nat.one_pos

/-- ConfigurationManager._find_config_files: start from the file's parent
directory (or the path itself when it is not a file), return the empty
list with a warning when the path is outside the watch directory, and
otherwise return the collected configuration files in root-to-leaf
order (the source reverses the walk-up list). -/
def find_config_files (fs : FileSys) (watchDir : List String)
    (file_path : List String) : List (List String × String) :=
  let current_dir := if fs.isFile file_path then file_path.dropLast else file_path
  if watchDir.isPrefixOf current_dir then
    (find_config_files_walk fs watchDir current_dir).reverse
  else []

/-- Pattern-accumulation loop of ConfigurationManager.get_file_action:
for each configuration file in order, parse it (through the cache) and
collect the matching (config_path, pattern) pairs into the include and
ignore match lists. -/
def collect_matches (fs : FileSys) (cache : Cache) (file_path : List String) :
    List (List String × String) →
      List (List String × String) × List (List String × String) × Cache
  | [] => ([], [], cache)
  | (config_path, config_type) :: rest =>
    let pr := parse_config_file fs cache config_path
    let config_dir := config_path.dropLast
    let hits := (pr.1.filter
        (fun pat => matches_pattern file_path pat config_dir)).map
      (fun pat => (config_path, pat))
    let m := collect_matches fs pr.2 file_path rest
    if config_type == "include" then (hits ++ m.1, m.2.1, m.2.2)
    else (m.1, hits ++ m.2.1, m.2.2)

/-- ConfigurationManager.get_file_action: find the configuration files,
default to REVIEW when there are none, otherwise accumulate include and
ignore matches and decide: both non-empty is ambiguous (REVIEW), only
ignore matches IGNORE, only include matches INCLUDE, neither REVIEW. -/
def get_file_action (fs : FileSys) (watchDir : List String) (cache : Cache)
    (file_path : List String) : FileAction × Cache :=
  let config_files := find_config_files fs watchDir file_path
  if config_files.isEmpty then (FileAction.REVIEW, cache)
  else
    let m := collect_matches fs cache file_path config_files
    let include_matches := m.1
    let ignore_matches := m.2.1
    let cache1 := m.2.2
    if !include_matches.isEmpty && !ignore_matches.isEmpty then
      (FileAction.REVIEW, cache1)
    else if !ignore_matches.isEmpty then (FileAction.IGNORE, cache1)
    else if !include_matches.isEmpty then (FileAction.INCLUDE, cache1)
    else (FileAction.REVIEW, cache1)

/-- Name of the configuration file targeted by
ConfigurationManager.add_pattern for a given action; none for REVIEW,
which cannot be persisted as a rule. -/
def git_file_name : FileAction → Option String
  | FileAction.INCLUDE => some ".gitinclude"
  | FileAction.IGNORE => some ".gitignore"
  | FileAction.REVIEW => none

/-- Result of ConfigurationManager.add_pattern: the returned boolean, the
cache after the call, and the append effect performed on the rule file
(none when the call failed or skipped a pattern already present). -/
structure AddPatternResult where
  ok : Bool
  cache : Cache
  appended : Option (List String × String)
deriving DecidableEq

/-- File-level body of ConfigurationManager.add_pattern, for an already
chosen configuration directory and file name: skip the append when the
pattern is already present in the parsed file, otherwise append the
pattern line and drop the file's cache entry.  Directory creation has no
observable effect in this model and the file append is recorded in the
appended field. -/
def add_pattern_at (fs : FileSys) (cache : Cache) (pattern : String)
    (config_dir : List String) (name : String) : AddPatternResult :=
  let config_file := config_dir ++ [name]
  if fs.pathExists config_file then
    let pr := parse_config_file fs cache config_file
    if pr.1.contains pattern then
      { ok := true, cache := pr.2, appended := none }
    else
      { ok := true
        cache := pr.2.filter (fun e => !(e.1 == config_file))
        appended := some (config_file, pattern) }
  else
    { ok := true
      cache := cache.filter (fun e => !(e.1 == config_file))
      appended := some (config_file, pattern) }

/-- ConfigurationManager.add_pattern: choose the configuration directory
(watch directory for global scope, else the parent of project_path when
given, else the watch directory), pick .gitinclude or .gitignore from the
action (failing for REVIEW), and apply the file-level body. -/
def add_pattern (fs : FileSys) (watchDir : List String) (cache : Cache)
    (pattern : String) (action : FileAction) (scope : String)
    (project_path : Option (List String)) : AddPatternResult :=
  let config_dir :=
    if scope == "global" then watchDir
    else
      match project_path with
      | some p => p.dropLast
      | none => watchDir
  match git_file_name action with
  | none => { ok := false, cache := cache, appended := none }
  | some name => add_pattern_at fs cache pattern config_dir name

/-- Row of the review_items SQLite table created by
ReviewQueue._init_database (src/review_queue.py). -/
structure Row where
  id : Nat
  file_path : String
  event_type : String
  timestamp : String
  reason : String
  status : String
  metadata : Option String
  created_at : String
  updated_at : String
deriving DecidableEq

/-- The review-queue database: the review_items rows plus the sqlite
autoincrement counter that supplies lastrowid. -/
structure ReviewDB where
  rows : List Row
  nextId : Nat
deriving DecidableEq

/-- ReviewQueue.add_item: unconditionally INSERT a new row with
status defaulting to pending, returning cursor.lastrowid.  When the
database call errors, the except handler logs and re-raises, so the
exception propagates to the caller (modelled as Except.error). -/
def add_item (dbErr : Bool) (db : ReviewDB) (file_path event_type reason : String)
    (metadata : Option String) (now : String) : Except String (Nat × ReviewDB) :=
  if dbErr then Except.error "sqlite3.Error"
  else
    let row : Row :=
      { id := db.nextId, file_path := file_path, event_type := event_type
        timestamp := now, reason := reason, status := "pending"
        metadata := metadata, created_at := now, updated_at := now }
    Except.ok (db.nextId, { rows := db.rows ++ [row], nextId := db.nextId + 1 })

/-- ReviewQueue.update_item_status: UPDATE the row with the given id to
the given status (any string), also setting updated_at; returns True
exactly when a row matched (rowcount positive), False when the id is
unknown or the database call errored (the except handler swallows the
exception and returns False). -/
def update_item_status (dbErr : Bool) (db : ReviewDB) (item_id : Nat)
    (status : String) (now : String) : Bool × ReviewDB :=
  if dbErr then (false, db)
  else if db.rows.any (fun r => r.id == item_id) then
    (true,
      { db with
        rows := db.rows.map (fun r =>
          if r.id == item_id then { r with status := status, updated_at := now }
          else r) })
  else (false, db)

/-- ReviewQueue.remove_item: DELETE the row with the given id; returns
True exactly when a row matched, False when the id is unknown or the
database call errored (the except handler swallows the exception and
returns False). -/
def remove_item (dbErr : Bool) (db : ReviewDB) (item_id : Nat) : Bool × ReviewDB :=
  if dbErr then (false, db)
  else if db.rows.any (fun r => r.id == item_id) then
    (true, { db with rows := db.rows.filter (fun r => !(r.id == item_id)) })
  else (false, db)

/-- Python dict assignment d[k] = v on an insertion-ordered dictionary:
overwrite the entry in place when the key is present, append a new entry
otherwise. -/
def dictInsert (d : List (String × Nat)) (k : String) (v : Nat) :
    List (String × Nat) :=
  if d.any (fun e => e.1 == k) then
    d.map (fun e => if e.1 == k then (k, v) else e)
  else d ++ [(k, v)]

/-- One iteration of the get_stats loop over the GROUP BY result:
stats with the group's status set to its count, then the total key
incremented by the count.  When a row's status is the literal string
total, the first assignment clobbers the running sum before the
increment reads it, exactly as the Python dict does. -/
def stats_step (stats : List (String × Nat)) (g : String × Nat) :
    List (String × Nat) :=
  let stats1 := dictInsert stats g.1 g.2
  dictInsert stats1 "total" ((stats1.lookup "total").getD 0 + g.2)

/-- ReviewQueue.get_stats: SELECT status, COUNT grouped by status, then
build a dict starting from total 0 by running stats_step over the
groups.  The key total is always present in the dict, so the getD
default inside stats_step is never used.  The group order of the SQL
GROUP BY is unspecified; this model takes one fixed enumeration of the
distinct statuses.  A database error yields the dictionary with only
total set to zero. -/
def get_stats (dbErr : Bool) (db : ReviewDB) : List (String × Nat) :=
  if dbErr then [("total", 0)]
  else
    let statuses := (db.rows.map (fun r => r.status)).dedup
    let groups := statuses.map
      (fun s => (s, db.rows.countP (fun r => r.status == s)))
    groups.foldl stats_step [("total", 0)]

/-- Number of rows of the table that are pending for a given path;
the spec's notion of pending rows for a file_path. -/
def pending_count_for (db : ReviewDB) (p : String) : Nat :=
  db.rows.countP (fun r => r.file_path == p && r.status == "pending")

/-- A file-system event as seen by CommitWorker.process_event: watchdog
delivers src_path and event_type. -/
structure FSEvent where
  src_path : List String
  event_type : String

/-- Rendering of a component path as the POSIX string stored in
the database. -/
def pathToString (p : List String) : String :=
  String.mk ('/' :: joinSlash p)

/-- Python keyword-argument binding for a call to ReviewQueue.add_item:
file_path, event_type and reason have no default, so a call whose
keyword arguments do not cover all three raises TypeError before the
body runs. -/
def call_add_item_kwargs (dbErr : Bool) (db : ReviewDB)
    (kwargs : List (String × String)) (metadata : Option String) (now : String) :
    Except String (Nat × ReviewDB) :=
  match kwargs.lookup "file_path", kwargs.lookup "event_type",
      kwargs.lookup "reason" with
  | some fp, some et, some r => add_item dbErr db fp et r metadata now
  | _, _, _ =>
    Except.error "TypeError: add_item missing required positional argument"

/-- CommitWorker.process_event (src/commit_worker.py): classify the
event's path; IGNORE is acknowledged with True, REVIEW calls
review_queue.add_item with the keyword arguments file_path and reason
only (the source omits the required event_type argument), INCLUDE falls
through to the final return True.  Any exception inside the body is
caught by the except handler, which logs and returns False. -/
def process_event (fs : FileSys) (watchDir : List String) (cache : Cache)
    (db : ReviewDB) (ev : FSEvent) (now : String) : Bool × Cache × ReviewDB :=
  let res := get_file_action fs watchDir cache ev.src_path
  let action := res.1
  let cache1 := res.2
  if action == FileAction.IGNORE then (true, cache1, db)
  else if action == FileAction.REVIEW then
    match call_add_item_kwargs false db
        [("file_path", pathToString ev.src_path),
         ("reason", "Ambiguous include/ignore rules")] none now with
    | Except.ok pr => (true, cache1, pr.2)
    | Except.error _ => (false, cache1, db)
  else (true, cache1, db)

/-! Helper lemmas about the review-queue model. -/

theorem update_fst_eq (db : ReviewDB) (i : Nat) (s n : String) :
    (update_item_status false db i s n).1 = db.rows.any (fun r => r.id == i) := by
  cases hany : db.rows.any (fun r => r.id == i) <;>
    simp only [update_item_status, Bool.false_eq_true, if_false, hany, if_true]

theorem update_rows_map_id (db : ReviewDB) (i : Nat) (s n : String) :
    (update_item_status false db i s n).2.rows.map (fun r => r.id) =
      db.rows.map (fun r => r.id) := by
  cases hany : db.rows.any (fun r => r.id == i) with
  | false => simp [update_item_status, hany]
  | true =>
    simp only [update_item_status, Bool.false_eq_true, if_false, hany, if_true,
      List.map_map]
    apply List.map_congr_left
    intro r _
    by_cases hid : r.id = i <;> simp [hid]

theorem update_any_id (db : ReviewDB) (i : Nat) (s n : String) (j : Nat) :
    (update_item_status false db i s n).2.rows.any (fun r => r.id == j) =
      db.rows.any (fun r => r.id == j) := by
  have hmap : ∀ l : List Row,
      l.any (fun r => r.id == j) = (l.map (fun r => r.id)).any (fun x => x == j) := by
    intro l
    induction l with
    | nil => rfl
    | cons a t ih => simp [ih]
  rw [hmap, hmap, update_rows_map_id]

theorem update_status_of_mem (db : ReviewDB) (i : Nat) (s n : String)
    (hmem : db.rows.any (fun r => r.id == i) = true) :
    ∀ r ∈ (update_item_status false db i s n).2.rows, r.id = i → r.status = s := by
  simp only [update_item_status, Bool.false_eq_true, if_false, hmem, if_true]
  intro r hr hid
  obtain ⟨r0, _, heq⟩ := List.mem_map.mp hr
  by_cases h0 : (r0.id == i) = true
  · rw [if_pos h0] at heq
    rw [← heq]
  · rw [if_neg h0] at heq
    exact absurd (heq ▸ hid) (by simpa using h0)

theorem sum_map_add (K : List String) (f g : String → Nat) :
    (K.map (fun s => f s + g s)).sum = (K.map f).sum + (K.map g).sum := by
  induction K with
  | nil => simp
  | cons a t ih =>
    simp only [List.map_cons, List.sum_cons, ih]
    omega

theorem sum_indicator (K : List String) (a : String) (hnd : K.Nodup)
    (hmem : a ∈ K) :
    (K.map (fun s => if (a == s) = true then 1 else 0)).sum = 1 := by
  induction K with
  | nil => cases hmem
  | cons b t ih =>
    rw [List.map_cons, List.sum_cons]
    rcases List.mem_cons.mp hmem with hab | hat
    · subst hab
      have hnotin : a ∉ t := (List.nodup_cons.mp hnd).1
      have hz : (t.map (fun s => if (a == s) = true then 1 else 0)).sum = 0 := by
        apply List.sum_eq_zero
        intro x hx
        obtain ⟨s, hs, rfl⟩ := List.mem_map.mp hx
        have hne : (a == s) = false := by
          rw [beq_eq_false_iff_ne]
          intro h
          exact hnotin (h ▸ hs)
        rw [hne]
        simp
      rw [hz, beq_self_eq_true]
      simp
    · have hbne : (a == b) = false := by
        rw [beq_eq_false_iff_ne]
        intro h
        exact (List.nodup_cons.mp hnd).1 (h ▸ hat)
      rw [hbne]
      simp only [Bool.false_eq_true, if_false, Nat.zero_add]
      exact ih (List.nodup_cons.mp hnd).2 hat

theorem sum_countP_nodup (K : List String) (hnd : K.Nodup) :
    ∀ L : List String, (∀ x ∈ L, x ∈ K) →
      (K.map (fun s => L.countP (fun x => x == s))).sum = L.length := by
  intro L
  induction L with
  | nil =>
    intro _
    have : K.map (fun s => List.countP (fun x => x == s) []) = K.map (fun _ => 0) := by
      apply List.map_congr_left
      intro s _
      exact List.countP_nil _
    rw [this]
    apply List.sum_eq_zero
    intro x hx
    obtain ⟨s, _, rfl⟩ := List.mem_map.mp hx
    rfl
  | cons a t ih =>
    intro hsub
    have hmem : a ∈ K := hsub a (List.mem_cons_self a t)
    have hsubt : ∀ x ∈ t, x ∈ K := fun x hx => hsub x (List.mem_cons_of_mem a hx)
    have hcons : K.map (fun s => (a :: t).countP (fun x => x == s)) =
        K.map (fun s =>
          t.countP (fun x => x == s) + if (a == s) = true then 1 else 0) := by
      apply List.map_congr_left
      intro s _
      rw [List.countP_cons]
    rw [hcons, sum_map_add, ih hsubt, sum_indicator K a hnd hmem, List.length_cons]

theorem sum_count_dedup (L : List String) :
    (L.dedup.map (fun s => L.countP (fun x => x == s))).sum = L.length :=
  sum_countP_nodup L.dedup (List.nodup_dedup L) L (fun _ hx => List.mem_dedup.mpr hx)

theorem lookup_cons_kv {β : Type} (x a : String) (b : β) (l : List (String × β)) :
    List.lookup x ((a, b) :: l) =
      if (x == a) = true then some b else List.lookup x l := by
  cases hax : x == a <;> simp [List.lookup, hax]

theorem lookup_map_overwrite (k : String) (v : Nat) :
    ∀ d : List (String × Nat), d.any (fun e => e.1 == k) = true →
      (d.map (fun e => if e.1 == k then (k, v) else e)).lookup k = some v := by
  intro d
  induction d with
  | nil => intro h; cases h
  | cons e t ih =>
    intro h
    simp only [List.map_cons]
    by_cases he : e.1 = k
    · rw [if_pos (beq_iff_eq.mpr he), lookup_cons_kv,
        if_pos (beq_self_eq_true k)]
    · rw [if_neg (by simpa using he), lookup_cons_kv,
        beq_eq_false_iff_ne.mpr (fun hh => he hh.symm)]
      simp only [Bool.false_eq_true, if_false]
      apply ih
      rw [List.any_cons, beq_eq_false_iff_ne.mpr he] at h
      simpa using h

theorem lookup_map_other (k : String) (v : Nat) (j : String) (hj : j ≠ k) :
    ∀ d : List (String × Nat),
      (d.map (fun e => if e.1 == k then (k, v) else e)).lookup j =
        d.lookup j := by
  intro d
  induction d with
  | nil => rfl
  | cons e t ih =>
    simp only [List.map_cons]
    by_cases he : e.1 = k
    · rw [if_pos (beq_iff_eq.mpr he), lookup_cons_kv, lookup_cons_kv,
        beq_eq_false_iff_ne.mpr hj,
        beq_eq_false_iff_ne.mpr (by rw [he]; exact hj)]
      simp only [Bool.false_eq_true, if_false]
      exact ih
    · rw [if_neg (by simpa using he), lookup_cons_kv, lookup_cons_kv]
      cases hq : (j == e.1) with
      | true => rfl
      | false =>
        simp only [Bool.false_eq_true, if_false]
        exact ih

theorem lookup_append_new (k : String) (v : Nat) :
    ∀ d : List (String × Nat), d.any (fun e => e.1 == k) = false →
      (d ++ [(k, v)]).lookup k = some v := by
  intro d
  induction d with
  | nil =>
    intro _
    rw [List.nil_append, lookup_cons_kv, if_pos (beq_self_eq_true k)]
  | cons e t ih =>
    intro h
    rw [List.any_cons] at h
    have h1 : (e.1 == k) = false := by
      cases hq : (e.1 == k) with
      | false => rfl
      | true => rw [hq] at h; simp at h
    have h2 : t.any (fun e => e.1 == k) = false := by
      rw [h1] at h
      simpa using h
    rw [List.cons_append, lookup_cons_kv,
      beq_eq_false_iff_ne.mpr (fun hh => (beq_eq_false_iff_ne.mp h1) hh.symm)]
    simp only [Bool.false_eq_true, if_false]
    exact ih h2

theorem lookup_append_other (k : String) (v : Nat) (j : String) (hj : j ≠ k) :
    ∀ d : List (String × Nat), (d ++ [(k, v)]).lookup j = d.lookup j := by
  intro d
  induction d with
  | nil =>
    rw [List.nil_append, lookup_cons_kv, beq_eq_false_iff_ne.mpr hj]
    simp only [Bool.false_eq_true, if_false]
  | cons e t ih =>
    rw [List.cons_append, lookup_cons_kv, lookup_cons_kv]
    cases hq : (j == e.1) with
    | true => rfl
    | false =>
      simp only [Bool.false_eq_true, if_false]
      exact ih

theorem lookup_dictInsert_self (d : List (String × Nat)) (k : String) (v : Nat) :
    (dictInsert d k v).lookup k = some v := by
  unfold dictInsert
  cases h : d.any (fun e => e.1 == k) with
  | true =>
    rw [if_pos rfl]
    exact lookup_map_overwrite k v d h
  | false =>
    simp only [Bool.false_eq_true, if_false]
    exact lookup_append_new k v d h

theorem lookup_dictInsert_other (d : List (String × Nat)) (k : String) (v : Nat)
    (j : String) (hj : j ≠ k) : (dictInsert d k v).lookup j = d.lookup j := by
  unfold dictInsert
  cases h : d.any (fun e => e.1 == k) with
  | true =>
    rw [if_pos rfl]
    exact lookup_map_other k v j hj d
  | false =>
    simp only [Bool.false_eq_true, if_false]
    exact lookup_append_other k v j hj d

theorem fold_lookup_total (gs : List (String × Nat)) :
    ∀ (d : List (String × Nat)) (t : Nat),
      (∀ g ∈ gs, g.1 ≠ "total") → d.lookup "total" = some t →
      (gs.foldl stats_step d).lookup "total" =
        some (t + (gs.map Prod.snd).sum) := by
  induction gs with
  | nil =>
    intro d t _ hd
    rw [List.foldl_nil, List.map_nil, List.sum_nil, Nat.add_zero]
    exact hd
  | cons g gs ih =>
    intro d t hk hd
    rw [List.foldl_cons]
    have hg1 : g.1 ≠ "total" := hk g (List.mem_cons_self g gs)
    have h1 : (dictInsert d g.1 g.2).lookup "total" = some t := by
      rw [lookup_dictInsert_other d g.1 g.2 "total" (fun hh => hg1 hh.symm)]
      exact hd
    have hstep : (stats_step d g).lookup "total" = some (t + g.2) := by
      simp only [stats_step]
      rw [h1]
      exact lookup_dictInsert_self _ "total" _
    have hrest := ih (stats_step d g) (t + g.2)
      (fun g' hg' => hk g' (List.mem_cons_of_mem g hg')) hstep
    rw [List.map_cons, List.sum_cons, ← Nat.add_assoc]
    exact hrest

theorem fold_lookup_key (K : List String) (f : String → Nat) :
    ∀ (d : List (String × Nat)) (s : String), s ≠ "total" →
      (∀ k ∈ K, k ≠ "total") → K.Nodup →
      ((K.map (fun k => (k, f k))).foldl stats_step d).lookup s =
        if s ∈ K then some (f s) else d.lookup s := by
  induction K with
  | nil =>
    intro d s _ _ _
    simp
  | cons k K ih =>
    intro d s hs hk hnd
    simp only [List.map_cons, List.foldl_cons]
    have hk2 : ∀ k' ∈ K, k' ≠ "total" :=
      fun k' h' => hk k' (List.mem_cons_of_mem k h')
    have hnd2 : K.Nodup := (List.nodup_cons.mp hnd).2
    rw [ih (stats_step d (k, f k)) s hs hk2 hnd2]
    by_cases hsk : s = k
    · have hsK : s ∉ K := by
        rw [hsk]
        exact (List.nodup_cons.mp hnd).1
      rw [if_neg hsK, if_pos (by rw [hsk]; exact List.mem_cons_self k K)]
      simp only [stats_step]
      rw [lookup_dictInsert_other _ "total" _ s hs, hsk]
      exact lookup_dictInsert_self d k (f k)
    · by_cases hm : s ∈ K
      · rw [if_pos hm, if_pos (List.mem_cons_of_mem k hm)]
      · rw [if_neg hm, if_neg (fun hh => by
          rcases List.mem_cons.mp hh with h1 | h2
          · exact hsk h1
          · exact hm h2)]
        simp only [stats_step]
        rw [lookup_dictInsert_other _ "total" _ s hs]
        exact lookup_dictInsert_other d k (f k) s hsk

theorem sum_count_rows (db : ReviewDB) :
    ((db.rows.map (fun r => r.status)).dedup.map
      (fun s => db.rows.countP (fun r => r.status == s))).sum = db.rows.length := by
  have h := sum_count_dedup (db.rows.map (fun r => r.status))
  rw [List.length_map] at h
  rw [← h]
  congr 1
  apply List.map_congr_left
  intro s _
  rw [List.countP_map]
  rfl

/-! Concrete fixtures used by witnesses and counterexamples. -/

def rowPending1 : Row :=
  { id := 1, file_path := "/w/b.py", event_type := "modified", timestamp := "t0"
    reason := "ambiguous", status := "pending", metadata := none
    created_at := "t0", updated_at := "t0" }

def dbPending1 : ReviewDB := { rows := [rowPending1], nextId := 2 }

def rowResolved1 : Row := { rowPending1 with status := "resolved", updated_at := "t1" }

def dbResolved1 : ReviewDB := { rows := [rowResolved1], nextId := 2 }

/-! Claim C1: duplicate pending adds. -/

def C1db1 : ReviewDB :=
  { rows := [{ id := 1, file_path := "/w/a.py", event_type := "modified"
               timestamp := "t1", reason := "ambiguous", status := "pending"
               metadata := none, created_at := "t1", updated_at := "t1" }]
    nextId := 2 }

def C1db2 : ReviewDB :=
  { rows := [{ id := 1, file_path := "/w/a.py", event_type := "modified"
               timestamp := "t1", reason := "ambiguous", status := "pending"
               metadata := none, created_at := "t1", updated_at := "t1" },
             { id := 2, file_path := "/w/a.py", event_type := "modified"
               timestamp := "t2", reason := "ambiguous", status := "pending"
               metadata := none, created_at := "t2", updated_at := "t2" }]
    nextId := 3 }

/-- C1 counterexample: adding the same path twice from the empty store
returns a second, different id (2, not the existing 1) and leaves two
pending rows for the path, refuting the claim that add_item returns the
existing pending id and keeps a single pending row. -/
theorem C1_counterexample :
    add_item false { rows := [], nextId := 1 } "/w/a.py" "modified" "ambiguous"
        none "t1" = Except.ok (1, C1db1) ∧
    add_item false C1db1 "/w/a.py" "modified" "ambiguous" none "t2" =
      Except.ok (2, C1db2) ∧
    (2 : Nat) ≠ 1 ∧
    pending_count_for C1db2 "/w/a.py" = 2 := by
  refine ⟨rfl, rfl, by decide, by decide⟩

/-- C1 (amended): ReviewQueue.add_item performs no duplicate check: every
call inserts a fresh row with the next autoincrement id (distinct from
every existing row id) and increases the number of pending rows for the
given path by one, even when a pending row for that path already
exists. -/
theorem C1_add_item_inserts_fresh_row (db : ReviewDB) (fp et r : String)
    (m : Option String) (now : String)
    (hid : ∀ row ∈ db.rows, row.id < db.nextId) :
    ∃ db2, add_item false db fp et r m now = Except.ok (db.nextId, db2) ∧
      (∀ row ∈ db.rows, row.id ≠ db.nextId) ∧
      pending_count_for db2 fp = pending_count_for db fp + 1 := by
  refine ⟨_, rfl, ?_, ?_⟩
  · intro row hrow
    exact Nat.ne_of_lt (hid row hrow)
  · simp [pending_count_for, add_item, List.countP_append]

/-- C1 witness: the amended statement evaluated on a store already
holding a pending row for the path. -/
theorem C1_witness :
    (∀ row ∈ C1db1.rows, row.id < C1db1.nextId) ∧
    (∃ db2, add_item false C1db1 "/w/a.py" "modified" "ambiguous" none "t2" =
        Except.ok (C1db1.nextId, db2) ∧
      (∀ row ∈ C1db1.rows, row.id ≠ C1db1.nextId) ∧
      pending_count_for db2 "/w/a.py" = pending_count_for C1db1 "/w/a.py" + 1) :=
  ⟨by decide,
    C1_add_item_inserts_fresh_row C1db1 "/w/a.py" "modified" "ambiguous" none "t2"
      (by decide)⟩

/-! Claim C3: status monotonicity. -/

/-- C3 counterexample: after a successful update to resolved on a pending
item, a later update_item_status call sets the item back to pending and
succeeds, and a further update to resolved on the same id also succeeds
(does not fail), refuting monotonicity. -/
theorem C3_counterexample :
    update_item_status false dbPending1 1 "resolved" "t1" = (true, dbResolved1) ∧
    (update_item_status false dbResolved1 1 "pending" "t2").1 = true ∧
    (update_item_status false dbResolved1 1 "pending" "t2").2.rows.map
        (fun r => r.status) = ["pending"] ∧
    (update_item_status false dbResolved1 1 "resolved" "t3").1 = true := by
  refine ⟨by decide, by decide, by decide, by decide⟩

/-- C3 (amended): ReviewQueue.update_item_status never inspects the
current status: for any id present in the table, updating to resolved
succeeds, a subsequent update back to pending succeeds and actually
reverts the row's status, and a further update to resolved on the same
id succeeds again. -/
theorem C3_status_not_monotonic (db : ReviewDB) (id0 : Nat) (n1 n2 n3 : String)
    (h : db.rows.any (fun r => r.id == id0) = true) :
    (update_item_status false db id0 "resolved" n1).1 = true ∧
    (update_item_status false (update_item_status false db id0 "resolved" n1).2
        id0 "pending" n2).1 = true ∧
    (∀ r ∈ (update_item_status false
        (update_item_status false db id0 "resolved" n1).2 id0 "pending" n2).2.rows,
      r.id = id0 → r.status = "pending") ∧
    (update_item_status false (update_item_status false
        (update_item_status false db id0 "resolved" n1).2 id0 "pending" n2).2
        id0 "resolved" n3).1 = true := by
  have h1 : ((update_item_status false db id0 "resolved" n1).2.rows.any
      (fun r => r.id == id0)) = true := by rw [update_any_id]; exact h
  refine ⟨?_, ?_, ?_, ?_⟩
  · rw [update_fst_eq]
    exact h
  · rw [update_fst_eq]
    exact h1
  · exact update_status_of_mem _ id0 "pending" n2 h1
  · rw [update_fst_eq, update_any_id]
    exact h1

/-- C3 witness: the amended statement evaluated on a store holding one
pending row with id 1. -/
theorem C3_witness :
    (dbPending1.rows.any (fun r => r.id == 1) = true) ∧
    ((update_item_status false dbPending1 1 "resolved" "t1").1 = true ∧
     (update_item_status false (update_item_status false dbPending1 1 "resolved"
         "t1").2 1 "pending" "t2").1 = true ∧
     (∀ r ∈ (update_item_status false (update_item_status false dbPending1 1
         "resolved" "t1").2 1 "pending" "t2").2.rows,
       r.id = 1 → r.status = "pending") ∧
     (update_item_status false (update_item_status false (update_item_status false
         dbPending1 1 "resolved" "t1").2 1 "pending" "t2").2 1 "resolved"
         "t3").1 = true) :=
  ⟨by decide, C3_status_not_monotonic dbPending1 1 "t1" "t2" "t3" (by decide)⟩

/-! Claim C4: resolve validation. -/

/-- C4 counterexample: update_item_status accepts the decision value
banana (which is neither include nor ignore, and is not even a valid
status) on a pending item: it returns True and mutates the row, refuting
the claim that invalid decisions fail with no row mutated. -/
theorem C4_counterexample :
    (update_item_status false dbPending1 1 "banana" "t2").1 = true ∧
    (update_item_status false dbPending1 1 "banana" "t2").2 ≠ dbPending1 := by
  refine ⟨by decide, by decide⟩

/-- C4 (amended): ReviewQueue.update_item_status succeeds exactly when a
row with the given id exists, for any status string whatsoever and
regardless of the row's current status; on failure the store is
unchanged, and on success the matching row gets the given status and
updated_at while every other row is untouched.  No decision value or
resolution timestamp is validated or recorded. -/
theorem C4_update_item_status_unvalidated (db : ReviewDB) (id0 : Nat)
    (st now : String) :
    ((update_item_status false db id0 st now).1 = true ↔
      ∃ r ∈ db.rows, r.id = id0) ∧
    ((update_item_status false db id0 st now).1 = false →
      (update_item_status false db id0 st now).2 = db) ∧
    (∀ r ∈ (update_item_status false db id0 st now).2.rows,
      (r.id = id0 → r.status = st ∧ r.updated_at = now) ∧
      (r.id ≠ id0 → r ∈ db.rows)) := by
  cases hany : db.rows.any (fun r => r.id == id0) with
  | false =>
    refine ⟨?_, ?_, ?_⟩
    · simp only [update_item_status, Bool.false_eq_true, if_false, hany]
      constructor
      · intro h
        cases h
      · intro ⟨r, hr, hid⟩
        have : db.rows.any (fun r => r.id == id0) = true :=
          List.any_eq_true.mpr ⟨r, hr, beq_iff_eq.mpr hid⟩
        rw [hany] at this
        cases this
    · intro _
      simp [update_item_status, hany]
    · simp only [update_item_status, Bool.false_eq_true, if_false, hany]
      intro r hr
      refine ⟨fun hid => ?_, fun _ => hr⟩
      have hx : db.rows.any (fun q => q.id == id0) = true :=
        List.any_eq_true.mpr ⟨r, hr, beq_iff_eq.mpr hid⟩
      rw [hany] at hx
      cases hx
  | true =>
    refine ⟨?_, ?_, ?_⟩
    · simp only [update_item_status, Bool.false_eq_true, if_false, hany, if_true]
      constructor
      · intro _
        obtain ⟨r, hr, hid⟩ := List.any_eq_true.mp hany
        exact ⟨r, hr, beq_iff_eq.mp hid⟩
      · intro _
        trivial
    · simp [update_item_status, hany]
    · simp only [update_item_status, Bool.false_eq_true, if_false, hany, if_true]
      intro r hr
      obtain ⟨r0, hr0, heq⟩ := List.mem_map.mp hr
      by_cases h0 : r0.id = id0
      · rw [if_pos (beq_iff_eq.mpr h0)] at heq
        constructor
        · intro _
          rw [← heq]
          exact ⟨rfl, rfl⟩
        · intro hne
          exact absurd (by rw [← heq]; exact h0) hne
      · rw [if_neg (by simpa using h0)] at heq
        constructor
        · intro hid
          exact absurd (heq ▸ hid) h0
        · intro _
          rw [← heq]
          exact hr0

/-- C4 witness: the amended statement evaluated on a store holding one
pending row with id 1 and the status value x. -/
theorem C4_witness :
    ((update_item_status false dbPending1 1 "x" "t9").1 = true ↔
      ∃ r ∈ dbPending1.rows, r.id = 1) ∧
    ((update_item_status false dbPending1 1 "x" "t9").1 = false →
      (update_item_status false dbPending1 1 "x" "t9").2 = dbPending1) ∧
    (∀ r ∈ (update_item_status false dbPending1 1 "x" "t9").2.rows,
      (r.id = 1 → r.status = "x" ∧ r.updated_at = "t9") ∧
      (r.id ≠ 1 → r ∈ dbPending1.rows)) :=
  C4_update_item_status_unvalidated dbPending1 1 "x" "t9"

/-! Claim C7: storage operation failure behavior. -/

/-- C7 counterexample: an internal database error during add_item is
re-raised by its except handler, so the exception propagates to the
caller instead of being returned as a failure signal. -/
theorem C7_counterexample :
    add_item true { rows := [], nextId := 1 } "/w/a.py" "modified" "ambiguous"
      none "t1" = Except.error "sqlite3.Error" := rfl

/-- C7 (amended): of the three write operations, update_item_status and
remove_item swallow an internal database error and return False with the
store unchanged, but add_item logs the error and re-raises it, so its
callers do receive the exception. -/
theorem C7_error_behavior (db : ReviewDB) (id0 : Nat) (st now fp et r : String)
    (m : Option String) :
    update_item_status true db id0 st now = (false, db) ∧
    remove_item true db id0 = (false, db) ∧
    add_item true db fp et r m now = Except.error "sqlite3.Error" :=
  ⟨rfl, rfl, rfl⟩

/-! Claim C9: get_stats shape. -/

/-- Store holding a single row whose status is the literal string total,
reachable through the public API because update_item_status accepts any
status string. -/
def dbTotal1 : ReviewDB :=
  { rows := [{ id := 1, file_path := "/w/b.py", event_type := "modified"
               timestamp := "t0", reason := "ambiguous", status := "total"
               metadata := none, created_at := "t0", updated_at := "t0" }]
    nextId := 2 }

/-- C9 counterexample: on the empty store get_stats returns a dictionary
holding only the key total (value 0), so the keys pending and resolved
are absent; and on a store whose single row has the status string total,
the loop's dict assignment clobbers the running sum, making total 2
while the store holds 1 row — refuting both the always-present keys and
the universal total-equals-row-count parts of the claim. -/
theorem C9_counterexample :
    get_stats false { rows := [], nextId := 1 } = [("total", 0)] ∧
    (get_stats false { rows := [], nextId := 1 }).lookup "pending" = none ∧
    (get_stats false { rows := [], nextId := 1 }).lookup "resolved" = none ∧
    (get_stats false dbTotal1).lookup "total" = some 2 ∧
    dbTotal1.rows.length = 1 := by
  refine ⟨rfl, rfl, rfl, by decide, rfl⟩

/-- C9 (amended): provided no row's status is the literal string total,
get_stats returns total equal to the number of all rows and, for every
key other than total, the count of rows with that status when such rows
exist and no entry at all otherwise; in particular pending and resolved
appear only when rows with those statuses exist, and the empty store
yields only total = 0.  When some row's status is literally total (a
state reachable through the unvalidated update_item_status), the loop's
dict assignment stats at that status overwrites the running sum, so
total need not equal the row count. -/
theorem C9_get_stats_shape (db : ReviewDB)
    (hnt : "total" ∉ db.rows.map (fun r => r.status)) :
    (get_stats false db).lookup "total" = some db.rows.length ∧
    (∀ s : String, s ≠ "total" →
      (get_stats false db).lookup s =
        if s ∈ db.rows.map (fun r => r.status)
        then some (db.rows.countP (fun r => r.status == s)) else none) := by
  have hK : ∀ k ∈ (db.rows.map (fun r => r.status)).dedup, k ≠ "total" := by
    intro k hk hkt
    exact hnt (hkt ▸ List.mem_dedup.mp hk)
  constructor
  · simp only [get_stats, Bool.false_eq_true, if_false]
    have htot := fold_lookup_total
      ((db.rows.map (fun r => r.status)).dedup.map
        (fun s => (s, db.rows.countP (fun r => r.status == s))))
      [("total", 0)] 0
      (fun g hg => by
        obtain ⟨s, hs, rfl⟩ := List.mem_map.mp hg
        exact hK s hs)
      (by rw [lookup_cons_kv, if_pos (beq_self_eq_true "total")])
    rw [htot, Nat.zero_add]
    have hms : (((db.rows.map (fun r => r.status)).dedup.map
        (fun s => (s, db.rows.countP (fun r => r.status == s)))).map
          Prod.snd).sum =
        ((db.rows.map (fun r => r.status)).dedup.map
          (fun s => db.rows.countP (fun r => r.status == s))).sum := by
      rw [List.map_map]
      rfl
    rw [hms, sum_count_rows db]
  · intro s hs
    simp only [get_stats, Bool.false_eq_true, if_false]
    rw [fold_lookup_key ((db.rows.map (fun r => r.status)).dedup)
      (fun s => db.rows.countP (fun r => r.status == s)) [("total", 0)] s hs hK
      (List.nodup_dedup _)]
    by_cases hm : s ∈ db.rows.map (fun r => r.status)
    · rw [if_pos (List.mem_dedup.mpr hm), if_pos hm]
    · rw [if_neg (fun hh => hm (List.mem_dedup.mp hh)), if_neg hm,
        lookup_cons_kv, beq_eq_false_iff_ne.mpr hs]
      simp only [Bool.false_eq_true, if_false]
      rfl

/-- C9 witness: the amended statement evaluated on a store holding one
pending row and no status named total, at the keys total and pending. -/
theorem C9_witness :
    ("total" ∉ dbPending1.rows.map (fun r => r.status)) ∧
    "pending" ≠ "total" ∧
    (get_stats false dbPending1).lookup "total" = some dbPending1.rows.length ∧
    (get_stats false dbPending1).lookup "pending" =
      (if "pending" ∈ dbPending1.rows.map (fun r => r.status)
       then some (dbPending1.rows.countP (fun r => r.status == "pending"))
       else none) :=
  ⟨by decide, by decide,
    (C9_get_stats_shape dbPending1 (by decide)).1,
    (C9_get_stats_shape dbPending1 (by decide)).2 "pending" (by decide)⟩

/-! Claim C2: classification decision rule. -/

/-- C2: get_file_action returns REVIEW when both the accumulated
include-match and ignore-match lists are non-empty, IGNORE when only
ignore matches exist, INCLUDE when only include matches exist, and
REVIEW when neither is non-empty; the early return for the case where no
rule file exists anywhere from root to leaf agrees with this rule, since
no rule files yield no matches. -/
theorem C2_get_file_action_decision (fs : FileSys) (watchDir : List String)
    (cache : Cache) (p : List String) :
    (get_file_action fs watchDir cache p).1 =
      (let m := collect_matches fs cache p (find_config_files fs watchDir p)
       if !m.1.isEmpty && !m.2.1.isEmpty then FileAction.REVIEW
       else if !m.2.1.isEmpty then FileAction.IGNORE
       else if !m.1.isEmpty then FileAction.INCLUDE
       else FileAction.REVIEW) := by
  cases hE : (find_config_files fs watchDir p).isEmpty with
  | true =>
    have hnil : find_config_files fs watchDir p = [] := List.isEmpty_iff.mp hE
    simp only [get_file_action, hnil]
    rfl
  | false =>
    simp only [get_file_action, hE, Bool.false_eq_true, if_false]
    simp only [apply_ite Prod.fst]

/-! Claim C5: out-of-scope paths. -/

theorem isPrefixOf_dropLast_false (w p : List String)
    (h : w.isPrefixOf p = false) : w.isPrefixOf p.dropLast = false := by
  cases hq : w.isPrefixOf p.dropLast with
  | false => rfl
  | true =>
    exfalso
    have hpre : w <+: p.dropLast := List.isPrefixOf_iff_prefix.mp hq
    have hdp : p.dropLast <+: p := by
      rw [List.dropLast_eq_take]
      exact List.take_prefix _ p
    have hwp : w.isPrefixOf p = true :=
      List.isPrefixOf_iff_prefix.mpr (hpre.trans hdp)
    rw [h] at hwp
    cases hwp

/-- C5: for every path outside the watched root (the watch directory is
not a path-component prefix of it), get_file_action returns REVIEW: the
relative_to check in find_config_files fails, no configuration file is
collected, and the safe default applies; in particular the result is
never INCLUDE or IGNORE for such a path. -/
theorem C5_outside_watch_review (fs : FileSys) (watchDir : List String)
    (cache : Cache) (p : List String)
    (h : watchDir.isPrefixOf p = false) :
    (get_file_action fs watchDir cache p).1 = FileAction.REVIEW := by
  have hcur : watchDir.isPrefixOf
      (if fs.isFile p then p.dropLast else p) = false := by
    cases hf : fs.isFile p with
    | true =>
      simp only [hf, if_true]
      exact isPrefixOf_dropLast_false watchDir p h
    | false =>
      simp only [hf, Bool.false_eq_true, if_false]
      exact h
  have hnil : find_config_files fs watchDir p = [] := by
    unfold find_config_files
    simp only [hcur, Bool.false_eq_true, if_false]
  simp only [get_file_action, hnil]
  rfl

/-- Filesystem in which every directory holds both rule files and every
read succeeds with a match-everything pattern; nothing is a file. -/
def fsEverywhere : FileSys :=
  { isFile := fun _ => false
    pathExists := fun _ => true
    read := fun _ => (["*"], false) }

/-- C5 witness: a path outside the watched root classifies as REVIEW
even on a filesystem whose rule files would otherwise match it. -/
theorem C5_witness :
    (["home", "w"].isPrefixOf ["etc", "x"] = false) ∧
    (get_file_action fsEverywhere ["home", "w"] [] ["etc", "x"]).1 =
      FileAction.REVIEW :=
  ⟨by decide,
    C5_outside_watch_review fsEverywhere ["home", "w"] [] ["etc", "x"] (by decide)⟩

/-! Claim C8: I/O errors while reading a rule file. -/

/-- Filesystem whose reads deliver one pattern line and then raise. -/
def fsPartialRead : FileSys :=
  { isFile := fun _ => false
    pathExists := fun _ => true
    read := fun _ => (["*.log"], true) }

/-- C8 counterexample: a rule file whose read raises after delivering one
line contributes that line as a pattern (the Python local accumulates
lines before the exception is caught), refuting the claim that a file
with a failing read contributes zero patterns. -/
theorem C8_counterexample :
    (fsPartialRead.read ["w", ".gitignore"]).2 = true ∧
    parse_config_file fsPartialRead [] ["w", ".gitignore"] = (["*.log"], []) ∧
    ["*.log"] ≠ ([] : List String) := by
  refine ⟨rfl, rfl, by decide⟩

/-- C8 (amended): when reading a rule file raises an I/O error, the error
never propagates out of parsing (the function totally returns a pattern
list) and the file contributes exactly the stripped non-empty non-comment
lines delivered before the error, zero when the open itself failed; the
partial result is not cached. -/
theorem C8_partial_lines (fs : FileSys) (cache : Cache) (cp : List String)
    (lines : List String) (hnc : cache.lookup cp = none)
    (hread : fs.read cp = (lines, true)) :
    parse_config_file fs cache cp =
      ((lines.map pyStrip).filter (fun l => l != "" && !(pyStartsWith l "#")),
        cache) := by
  unfold parse_config_file
  rw [hnc, hread]
  rfl

/-- Filesystem whose reads deliver a pattern line, a comment and blank
lines, then raise. -/
def fsPartialRead2 : FileSys :=
  { isFile := fun _ => false
    pathExists := fun _ => true
    read := fun _ => (["keep.py", "# comment", "", "  "], true) }

/-- C8 witness: the amended statement evaluated on a read that errors
after delivering four lines, of which only one is a pattern. -/
theorem C8_witness :
    (([] : Cache).lookup ["w", ".gitignore"] = none) ∧
    parse_config_file fsPartialRead2 [] ["w", ".gitignore"] = (["keep.py"], []) :=
  ⟨rfl,
    C8_partial_lines fsPartialRead2 [] ["w", ".gitignore"]
      ["keep.py", "# comment", "", "  "] rfl rfl⟩

/-! Claim C10: add_pattern target directory. -/

theorem add_pattern_at_appended (fs : FileSys) (cache : Cache) (pat : String)
    (cd : List String) (name : String) (f : List String) (ln : String)
    (h : (add_pattern_at fs cache pat cd name).appended = some (f, ln)) :
    f = cd ++ [name] ∧ ln = pat := by
  simp only [add_pattern_at] at h
  by_cases hex : fs.pathExists (cd ++ [name]) = true
  · rw [if_pos hex] at h
    by_cases hc : (parse_config_file fs cache (cd ++ [name])).1.contains pat = true
    · rw [if_pos hc] at h
      cases h
    · rw [if_neg hc] at h
      have h2 := Option.some.inj h
      exact ⟨(congrArg Prod.fst h2).symm, (congrArg Prod.snd h2).symm⟩
  · rw [if_neg hex] at h
    have h2 := Option.some.inj h
    exact ⟨(congrArg Prod.fst h2).symm, (congrArg Prod.snd h2).symm⟩

/-- C10: for non-global scope, whenever add_pattern appends the pattern
to a rule file, that file lives in the parent directory of project_path
when one is given (not in project_path itself), and in the watched root
directory when project_path is None. -/
theorem C10_add_pattern_parent_dir (fs : FileSys) (watchDir : List String)
    (cache : Cache) (pat : String) (scope : String) (P : List String)
    (action : FileAction) (name : String)
    (hs : (scope == "global") = false) (hn : git_file_name action = some name) :
    (∀ f ln, (add_pattern fs watchDir cache pat action scope (some P)).appended =
        some (f, ln) → f = P.dropLast ++ [name] ∧ ln = pat) ∧
    (∀ f ln, (add_pattern fs watchDir cache pat action scope none).appended =
        some (f, ln) → f = watchDir ++ [name] ∧ ln = pat) := by
  constructor
  · intro f ln h
    have hrw : add_pattern fs watchDir cache pat action scope (some P) =
        add_pattern_at fs cache pat P.dropLast name := by
      simp only [add_pattern, hn, hs, Bool.false_eq_true, if_false]
    rw [hrw] at h
    exact add_pattern_at_appended fs cache pat P.dropLast name f ln h
  · intro f ln h
    have hrw : add_pattern fs watchDir cache pat action scope none =
        add_pattern_at fs cache pat watchDir name := by
      simp only [add_pattern, hn, hs, Bool.false_eq_true, if_false]
    rw [hrw] at h
    exact add_pattern_at_appended fs cache pat watchDir name f ln h

/-- Filesystem in which nothing exists and every read fails at open. -/
def fsAbsent : FileSys :=
  { isFile := fun _ => false
    pathExists := fun _ => false
    read := fun _ => ([], true) }

/-- C10 witness: adding an include pattern with project scope for a
project path writes to the .gitinclude in that path's parent
directory. -/
theorem C10_witness :
    (("project" == "global") = false) ∧
    (["r", "p", ".gitinclude"] = ["r", "p", "x.py"].dropLast ++ [".gitinclude"] ∧
      "*.py" = "*.py") :=
  ⟨by decide,
    (C10_add_pattern_parent_dir fsAbsent ["w"] [] "*.py" "project"
        ["r", "p", "x.py"] FileAction.INCLUDE ".gitinclude" (by decide) rfl).1
      ["r", "p", ".gitinclude"] "*.py" (by decide)⟩

/-! Claim C6: dispatching a REVIEW-classified event. -/

/-- C6: for every event whose path classifies as REVIEW, process_event
returns False and leaves the review store unchanged: the add_item call
in the source supplies only the keyword arguments file_path and reason,
so the required event_type parameter is missing, the call raises
TypeError before any insert, and the except handler swallows it and
returns False; no pending item for the path is ever created. -/
theorem C6_review_event_adds_nothing (fs : FileSys) (watchDir : List String)
    (cache : Cache) (db : ReviewDB) (ev : FSEvent) (now : String)
    (h : (get_file_action fs watchDir cache ev.src_path).1 = FileAction.REVIEW) :
    process_event fs watchDir cache db ev now =
      (false, (get_file_action fs watchDir cache ev.src_path).2, db) := by
  simp only [process_event, h]
  rfl

/-- C6 witness: a concrete REVIEW-classified event (no rule files exist)
is processed with result False and an untouched, still-empty store. -/
theorem C6_witness :
    ((get_file_action fsAbsent [] [] ["a.py"]).1 = FileAction.REVIEW) ∧
    process_event fsAbsent [] [] { rows := [], nextId := 1 }
        { src_path := ["a.py"], event_type := "created" } "t" =
      (false, (get_file_action fsAbsent [] [] ["a.py"]).2,
        { rows := [], nextId := 1 }) :=
  ⟨by simp +decide [get_file_action, find_config_files, find_config_files_walk],
    C6_review_event_adds_nothing fsAbsent [] [] { rows := [], nextId := 1 }
      { src_path := ["a.py"], event_type := "created" } "t"
      (by simp +decide [get_file_action, find_config_files,
        find_config_files_walk])⟩

end AutoCommit
